import Mathlib

set_option maxHeartbeats 1000000

/-
Shallow embedding of the transaction-tracker repository.

Embedded source files:
  * backend/core/categorizer.py  (BatchTransactionCategorizer: the closed
    category taxonomy, the rule-based fallback `enhanced_categorize`, the
    batch orchestrator `batch_categorize_all_transactions`, and the ledger
    assembly of `categorize_transactions_json`);
  * backend/core/rag_chatbot.py  (RAGTransactionChatbot: `compute_analytics`,
    `is_transaction_related`, `extract_date_info`, `extract_amount_info`,
    `understand_question`, the dispatcher guard of `generate_response`, and
    the amount filter of `handle_threshold_question`);
  * backend/core/chatbot.py      (`get_balance_info`).

The external OpenAI classification call is modelled as an oracle mapping a
batch index to an outcome: either a failure (transport error, JSON decode
error, or a response that is not a list - all of which raise and are caught
by the same `except` at categorizer.py:179) or a parsed list whose elements
are either well-formed `{id, category}` pairs or malformed elements (those
lacking the keys or not being dicts, which categorizer.py:157 skips).
-/

namespace TransactionTracker

/-- Python `str.lower()` (ASCII case folding, which is all the source's
keyword tables exercise). -/
def lowerStr (s : String) : String := String.mk (s.data.map Char.toLower)

/-- Python `str.strip()`: drop whitespace from both ends. -/
def stripStr (s : String) : String :=
  String.mk (((s.data.dropWhile Char.isWhitespace).reverse.dropWhile Char.isWhitespace).reverse)

/-- Python substring test `needle in hay` (used by every `any(... in ...)`
in the source). -/
def containsSub (hay needle : String) : Bool :=
  (List.range (hay.data.length + 1)).any (fun i => needle.data.isPrefixOf (hay.data.drop i))

/-- The closed 11-member category taxonomy,
`BatchTransactionCategorizer.categories` (categorizer.py:35-39). -/
def categories : List String :=
  ["Food & Dining", "Transportation", "Shopping", "Healthcare",
   "Entertainment", "Utilities & Bills", "Financial Services",
   "Personal Care", "Education", "Transfer/Refund", "Miscellaneous"]

/-- The per-category keyword table of `enhanced_categorize`
(categorizer.py:197-245), in Python dict insertion order, which is the
iteration order of the matching loop at categorizer.py:261. -/
def keywordMap : List (String × List String) := [
  ("Food & Dining",
   ["super", "restaurant", "food", "zomato", "swiggy", "cafe", "hotel",
    "mess", "canteen", "dhaba", "bakery", "pizza", "burger", "grocery",
    "mart", "store", "fresh", "fruits", "vegetables", "milk", "bread", "mingos"]),
  ("Healthcare",
   ["chemist", "pharmacy", "medical", "hospital", "clinic", "health",
    "doctor", "medicine", "pharma", "apollo", "care", "diagnostics",
    "pathology", "lab", "dental", "eye", "skin"]),
  ("Transportation",
   ["uber", "ola", "petrol", "fuel", "metro", "bus", "taxi", "auto",
    "rickshaw", "transport", "travel", "booking", "irctc", "railway",
    "airlines", "flight", "cab", "bike", "scooter"]),
  ("Financial Services",
   ["groww", "mutual", "fund", "bank", "loan", "insurance", "invest",
    "sip", "rd", "fd", "policy", "premium", "emi", "interest",
    "zerodha", "upstox", "icicidirect", "hdfc", "axis", "kotak"]),
  ("Transfer/Refund",
   ["transfer", "refund", "neft", "imps", "rtgs", "cashback",
    "reversal", "credited", "debited"]),
  ("Utilities & Bills",
   ["electricity", "water", "gas", "bill", "recharge", "mobile",
    "broadband", "internet", "wifi", "jio", "airtel", "vodafone",
    "bsnl", "rent", "maintenance"]),
  ("Shopping",
   ["amazon", "flipkart", "myntra", "ajio", "shop", "store", "mall",
    "online", "purchase", "buy", "order", "delivery", "ecommerce",
    "fashion", "clothing", "electronics", "mobile", "laptop"]),
  ("Entertainment",
   ["movie", "netflix", "prime", "hotstar", "spotify", "youtube",
    "game", "gaming", "cinema", "theatre", "show", "concert",
    "music", "subscription", "entertainment"]),
  ("Personal Care",
   ["salon", "spa", "parlour", "beauty", "cosmetic", "skincare",
    "haircut", "facial", "massage", "grooming"]),
  ("Education",
   ["school", "college", "university", "course", "training",
    "education", "tuition", "coaching", "book", "study"])]

/-- `person_indicators` (categorizer.py:248-251). -/
def personIndicators : List String :=
  ["upi/", "/upi", "aditya", "kalpana", "pushpa", "nagamma", "fathima",
   "suhara", "clive", "allen", "savitha", "debnat", "mohan", "kumar"]

/-- `business_keywords` (categorizer.py:256). -/
def businessKeywords : List String :=
  ["super", "store", "shop", "mart", "services", "pvt", "ltd"]

/-- One keyword-table entry matches a (lowered) narration iff some keyword of
the entry occurs as a substring (`any(keyword in narration_lower ...)`,
categorizer.py:262). -/
def catMatches (nl : String) (entry : String × List String) : Bool :=
  entry.2.any (fun kw => containsSub nl kw)

/-- `BatchTransactionCategorizer.enhanced_categorize` (categorizer.py:192-275):
lower-case the narration; if a person indicator matches and no business
keyword does, return Transfer/Refund; otherwise the first keyword-table
entry with a matching keyword wins; otherwise the residual special patterns;
otherwise Miscellaneous. -/
def enhancedCategorize (narration : String) : String :=
  let nl := lowerStr narration
  if personIndicators.any (fun p => containsSub nl p)
      && !(businessKeywords.any (fun b => containsSub nl b)) then
    "Transfer/Refund"
  else
    match keywordMap.find? (catMatches nl) with
    | some entry => entry.1
    | none =>
      if containsSub nl "cashback" || containsSub nl "earned" then "Transfer/Refund"
      else if containsSub nl "int.pd" || containsSub nl "interest" then "Financial Services"
      else if containsSub nl "adidas" || containsSub nl "nike" then "Shopping"
      else "Miscellaneous"

/-- A transaction reference handed to the orchestrator
(`json_to_categorization_format`, categorizer.py:41-54).  The `amount` and
debit/credit flag of the Python dict flow only into the prompt text
(categorizer.py:87) and never into the control flow, so only the fields the
orchestrator branches on are carried. -/
structure TxRef where
  id : Nat
  narration : String
deriving DecidableEq, Repr

/-- One element of a parsed batch response list: either a well-formed
`{id, category}` dict or any other value (skipped at categorizer.py:157). -/
inductive RespItem where
  | malformed
  | item (id : Nat) (category : String)
deriving DecidableEq, Repr

/-- Outcome of one external classification call, after response cleanup and
JSON parsing: `err` covers a transport failure, a JSON decode error, and a
parsed value that is not a list (all three raise into the `except` at
categorizer.py:179); `ok items` is a successfully parsed list. -/
inductive ApiOutcome where
  | err
  | ok (items : List RespItem)
deriving DecidableEq, Repr

/-- The `all_results` Python dict, as its lookup function. -/
def ResultMap : Type := Nat → Option String

/-- Python dict assignment `all_results[k] = v`. -/
def dinsert (m : ResultMap) (k : Nat) (v : String) : ResultMap :=
  fun j => if j = k then some v else m j

/-- The success-path loop over a parsed response list
(categorizer.py:156-166): each well-formed `{id, category}` pair is stored,
with an out-of-taxonomy category coerced to Miscellaneous; malformed
elements are skipped. -/
def processItems : List RespItem → ResultMap → ResultMap
  | [], m => m
  | RespItem.malformed :: rest, m => processItems rest m
  | RespItem.item i c :: rest, m =>
      processItems rest (dinsert m i (if c ∈ categories then c else "Miscellaneous"))

/-- The per-batch fallback loop (categorizer.py:183-187): every transaction
of the batch whose id is not yet present is assigned its rule-based
category. -/
def fallbackBatch : List TxRef → ResultMap → ResultMap
  | [], m => m
  | tx :: rest, m =>
      fallbackBatch rest
        (if (m tx.id).isSome then m else dinsert m tx.id (enhancedCategorize tx.narration))

/-- Processing of one batch (categorizer.py:132-187): a successful parse
runs the item loop, any failure runs the full-batch fallback. -/
def processBatch (outcome : ApiOutcome) (batch : List TxRef) (m : ResultMap) : ResultMap :=
  match outcome with
  | ApiOutcome.err => fallbackBatch batch m
  | ApiOutcome.ok items => processItems items m

/-- The contiguous slice `transactions[start_idx:end_idx]` for batch `b`
(categorizer.py:126-128). -/
def batchOf (txs : List TxRef) (bs b : Nat) : List TxRef :=
  (txs.drop (b * bs)).take bs

/-- The batch loop `for batch_num in range(total_batches)`
(categorizer.py:125), processing the given batch indices in order. -/
def runBatches (oracle : Nat → ApiOutcome) (txs : List TxRef) (bs : Nat) :
    List Nat → ResultMap → ResultMap
  | [], m => m
  | b :: rest, m =>
      runBatches oracle txs bs rest (processBatch (oracle b) (batchOf txs bs b) m)

/-- `BatchTransactionCategorizer.batch_categorize_all_transactions`
(categorizer.py:118-190), with the external call abstracted as `oracle`. -/
def batchCategorizeAll (oracle : Nat → ApiOutcome) (txs : List TxRef) (bs : Nat) : ResultMap :=
  runBatches oracle txs bs (List.range ((txs.length + bs - 1) / bs)) (fun _ => none)

/-- The raw transaction dicts of `categorize_transactions_json` before a
category is attached (the fields of the uploaded statement rows). -/
structure RawRecord where
  date : Nat
  narration : String
  withdrawal : ℤ
  deposit : ℤ
  balance : ℤ
deriving DecidableEq, Repr

/-- A fully categorized transaction record, the row shape consumed by the
chatbot (`Date`, `Narration`, `Withdrawal(Dr)`, `Deposit(Cr)`, `Balance`,
`Category`).  Dates are modelled as ordinals (the code only compares them
and takes the one of maximal/last position).  Monetary amounts are modelled
as integers with exact arithmetic: every amount the embedded code paths
construct is integral (the amount regex parses digit strings), and the
order, equality and sum properties proved below are independent of the
numeric carrier, so Python's float arithmetic is idealised as exact. -/
structure Record where
  date : Nat
  narration : String
  withdrawal : ℤ
  deposit : ℤ
  balance : ℤ
  category : String
deriving DecidableEq, Repr

/-- The ledger-assembly loop of `categorize_transactions_json`
(categorizer.py:311-315): record `i` receives `results.get(i, "Miscellaneous")`. -/
def assembleCategorized (results : ResultMap) (raw : List RawRecord) : List Record :=
  raw.enum.map (fun p =>
    { date := p.2.date, narration := p.2.narration, withdrawal := p.2.withdrawal,
      deposit := p.2.deposit, balance := p.2.balance,
      category := (results p.1).getD "Miscellaneous" })

/-- The distinct values of a column in order of first appearance
(`pandas.Series.unique`, used for the Category column at rag_chatbot.py:75). -/
def uniqFirst : List String → List String
  | [] => []
  | x :: xs => x :: (uniqFirst xs).filter (fun y => y != x)

/-- The per-category `total_spent` aggregate (rag_chatbot.py:76-78): the sum
of the Withdrawal(Dr) column over the rows of one category. -/
def catTotalSpent (ledger : List Record) (c : String) : ℤ :=
  ((ledger.filter (fun r => r.category == c)).map Record.withdrawal).sum

/-- The slice of the analytics snapshot of `compute_analytics`
(rag_chatbot.py:48-111) that the claims below reference: the overall totals
(lines 56-59) and the per-category `total_spent` aggregates (lines 74-87,
keyed by the distinct values of the Category column in order of first
appearance).  The remaining snapshot fields — the date range, the
duplicated `summary` block, the per-category means/counts/extrema, the
per-month aggregates and the two top-10 lists — are referenced by no claim
and are not modelled. -/
structure Analytics where
  total_transactions : Nat
  total_spent : ℤ
  total_received : ℤ
  current_balance : ℤ
  categoriesTotals : List (String × ℤ)
deriving DecidableEq, Repr

/-- `compute_analytics` (rag_chatbot.py:48-111).  An empty ledger returns
the empty dict `{}` (lines 50-51), modelled as `none`: the early return
carries none of the snapshot's keys.  Otherwise `current_balance` is the
Balance field of the last row in presentation order (`self.df.iloc[-1]`,
line 59 — the frame is built from the loaded list and never sorted), and
the totals are the corresponding column sums. -/
def computeAnalytics (ledger : List Record) : Option Analytics :=
  if h : ledger = [] then none
  else some {
    total_transactions := ledger.length,
    total_spent := (ledger.map Record.withdrawal).sum,
    total_received := (ledger.map Record.deposit).sum,
    current_balance := (ledger.getLast h).balance,
    categoriesTotals := (uniqFirst (ledger.map Record.category)).map
      (fun c => (c, catTotalSpent ledger c)) }

/-- The `__init__` branch of `RAGTransactionChatbot` (rag_chatbot.py:19-25):
with an empty transaction list the analytics attribute is set to the empty
dict without calling `compute_analytics`. -/
def initAnalytics (transactions : List Record) : Option Analytics :=
  if transactions.isEmpty then none else computeAnalytics transactions

/-- `get_balance_info` of backend/core/chatbot.py:188-196: the Balance
field of the date-maximal record (Python `max` keeps the first of equal
keys, replacing the best only on a strictly larger key). -/
def getBalanceInfo (transactions : List Record) : Option ℤ :=
  match transactions with
  | [] => none
  | t :: rest =>
      some ((rest.foldl (fun best x => if best.date < x.date then x else best) t).balance)

/-- `financial_keywords` (rag_chatbot.py:118-131). -/
def financialKeywords : List String :=
  ["transaction", "transactions", "payment", "payments", "transfer", "transfers",
   "spend", "spent", "spending", "expense", "expenses", "cost", "costs",
   "credit", "credited", "debit", "debited", "deposit", "withdrawal", "withdraw",
   "money", "amount", "rupees", "rs", "₹", "balance", "account",
   "total", "sum", "average", "avg", "mean", "count", "number", "how many", "how much",
   "top", "highest", "lowest", "maximum", "minimum", "largest", "smallest",
   "trend", "monthly", "yearly", "over time", "breakdown", "summary",
   "food", "dining", "restaurant", "healthcare", "health", "medical",
   "financial", "finance", "investment", "transport", "transportation", "travel",
   "education", "shopping", "personal", "care", "transfer", "refund",
   "miscellaneous", "category", "categories",
   "month", "year", "daily", "weekly", "period", "date", "time"]

/-- `non_financial_keywords` (rag_chatbot.py:140-146). -/
def nonFinancialKeywords : List String :=
  ["weather", "climate", "temperature", "rain", "sunny", "cloudy",
   "recipe", "cooking", "ingredients", "food recipe", "how to cook",
   "movie", "film", "actor", "actress", "cinema", "entertainment",
   "sports", "football", "cricket", "basketball", "game", "match",
   "politics", "government", "election", "politician", "policy"]

/-- `greetings` (rag_chatbot.py:158). -/
def greetingsList : List String :=
  ["hello", "hi", "hey", "good morning", "good afternoon", "good evening"]

/-- `general_chat` (rag_chatbot.py:159). -/
def generalChat : List String :=
  ["how are you", "what can you do", "help", "what is your name"]

/-- `help_keywords` (rag_chatbot.py:295). -/
def helpKeywords : List String := ["help", "what can you do", "capabilities", "features"]

/-- The date-pattern check `re.search(r'\d\x7b4\x7d(-\d\x7b1,2\x7d)?', ...)`
(rag_chatbot.py:137): satisfied exactly when four consecutive digits occur
(the trailing group is optional, so it does not constrain matching). -/
def hasDatePattern (s : String) : Bool :=
  (List.range s.data.length).any (fun i =>
    (((s.data.drop i).take 4).length == 4) && ((s.data.drop i).take 4).all Char.isDigit)

/-- `is_transaction_related` (rag_chatbot.py:113-164).  The non-financial
check is evaluated before the financial-keyword/date check, so it takes
precedence over any financial keyword also present. -/
def isTransactionRelated (question : String) : Bool :=
  let ql := stripStr (lowerStr question)
  if nonFinancialKeywords.any (fun k => containsSub ql k) then false
  else if (financialKeywords.any (fun k => containsSub ql k)) || hasDatePattern ql then true
  else if (greetingsList ++ generalChat).any (fun g => containsSub ql g) then true
  else false

/-- The date slots extracted by `extract_date_info` (rag_chatbot.py:166-204);
absent dict keys are `none`. -/
structure DateInfo where
  month : Option String
  monthName : Option String
  year : Option String
  period : Option String
deriving DecidableEq, Repr

/-- The `months` mapping (rag_chatbot.py:171-178), in dict insertion order
(the iteration order of the month loop). -/
def monthsTable : List (String × String) :=
  [("january", "01"), ("february", "02"), ("march", "03"), ("april", "04"),
   ("may", "05"), ("june", "06"), ("july", "07"), ("august", "08"),
   ("september", "09"), ("october", "10"), ("november", "11"), ("december", "12"),
   ("jan", "01"), ("feb", "02"), ("mar", "03"), ("apr", "04"),
   ("jun", "06"), ("jul", "07"), ("aug", "08"), ("sep", "09"),
   ("oct", "10"), ("nov", "11"), ("dec", "12")]

/-- Python `str.capitalize()` on the already-lower-case month names. -/
def capitalizeStr (s : String) : String :=
  match s.data with
  | [] => s
  | c :: rest => String.mk (c.toUpper :: rest)

/-- Python regex word characters (`\w`, ASCII). -/
def isWordChar (c : Char) : Bool := c.isAlphanum || c == '_'

/-- Leftmost match of `\b(20\d\x7b2\x7d)\b` (rag_chatbot.py:190): four
characters starting with "20" followed by two digits, delimited by word
boundaries on both sides. -/
def findYear (s : String) : Option String :=
  (List.range s.data.length).findSome? (fun i =>
    let w := (s.data.drop i).take 4
    let prevOk : Bool := (i == 0) || !(isWordChar (s.data.getD (i - 1) ' '))
    let nextOk : Bool :=
      match (s.data.drop (i + 4)).head? with
      | none => true
      | some c => !(isWordChar c)
    if (w.length == 4) && (w.getD 0 ' ' == '2') && (w.getD 1 ' ' == '0')
        && (w.getD 2 ' ').isDigit && (w.getD 3 ' ').isDigit && prevOk && nextOk
    then some (String.mk w) else none)

/-- `extract_date_info` (rag_chatbot.py:166-204): the first month name
contained in the lowered question wins; the year comes from the regex; the
week/day period phrases are tested in the source's order. -/
def extractDateInfo (question : String) : DateInfo :=
  let ql := lowerStr question
  let monthHit := monthsTable.find? (fun mn => containsSub ql mn.1)
  { month := monthHit.map (fun mn => mn.2),
    monthName := monthHit.map (fun mn => capitalizeStr mn.1),
    year := findYear ql,
    period :=
      if containsSub ql "this week" then some "this_week"
      else if containsSub ql "last week" then some "last_week"
      else if containsSub ql "weekly" then some "weekly"
      else if containsSub ql "daily" then some "daily"
      else none }

/-- The amount filter extracted by `extract_amount_info`
(rag_chatbot.py:206-231); `empty` is the empty dict (no pattern matched). -/
inductive AmountInfo where
  | empty
  | above (min : ℤ)
  | below (max : ℤ)
  | range (min max : ℤ)
  | exactAmount (amount : ℤ)
deriving DecidableEq, Repr

/-- Numeric value of a digit run. -/
def digitsVal (ds : List Char) : Nat :=
  ds.foldl (fun n c => 10 * n + (c.toNat - 48)) 0

/-- Greedy consumption of the `(?:,\d+)*` comma groups of the amount regex;
the fuel is bounded by the input length (each group consumes at least two
characters), making the regex's finite iteration explicit. -/
def groupDigits : Nat → List Char → List Char → List Char × List Char
  | 0, acc, cs => (acc, cs)
  | fuel + 1, acc, cs =>
    match cs with
    | ',' :: rest =>
      let d := rest.takeWhile Char.isDigit
      if d.isEmpty then (acc, ',' :: rest)
      else groupDigits fuel (acc ++ d) (rest.drop d.length)
    | _ => (acc, cs)

/-- Parse `\s*₹?(\d+(?:,\d+)*)` at the given position; the returned value is
`float(group.replace(',', ''))` and the remaining input follows the match. -/
def parseAmountRest (cs : List Char) : Option (ℤ × List Char) :=
  let cs2 := cs.dropWhile Char.isWhitespace
  let cs3 := match cs2 with
    | c :: rest => if c == '₹' then rest else cs2
    | [] => cs2
  let d := cs3.takeWhile Char.isDigit
  if d.isEmpty then none
  else
    let g := groupDigits cs3.length d (cs3.drop d.length)
    some ((digitsVal g.1 : ℤ), g.2)

/-- Try each alternative keyword of one pattern, in order, at this exact
position, followed by the amount group (one `re.search` candidate
position). -/
def matchKeysAt (keys : List String) (cs : List Char) : Option ℤ :=
  keys.findSome? (fun k =>
    if k.data.isPrefixOf cs then (parseAmountRest (cs.drop k.data.length)).map Prod.fst
    else none)

/-- Leftmost-position scan of `re.search` for one keyword-number pattern. -/
def searchKeyNum (keys : List String) : List Char → Option ℤ
  | [] => none
  | c :: rest =>
    match matchKeysAt keys (c :: rest) with
    | some v => some v
    | none => searchKeyNum keys rest

/-- One candidate position of the pattern
`between\s*₹?(\d+(?:,\d+)*)\s*(?:and|to)\s*₹?(\d+(?:,\d+)*)`. -/
def matchBetweenAt (cs : List Char) : Option (ℤ × ℤ) :=
  if ("between".data).isPrefixOf cs then
    match parseAmountRest (cs.drop 7) with
    | none => none
    | some (a, rest1) =>
      let rest2 := rest1.dropWhile Char.isWhitespace
      match (if ("and".data).isPrefixOf rest2 then some (rest2.drop 3)
             else if ("to".data).isPrefixOf rest2 then some (rest2.drop 2)
             else none) with
      | none => none
      | some rest3 =>
        match parseAmountRest rest3 with
        | none => none
        | some (b, _) => some (a, b)
  else none

/-- Leftmost-position scan for the between pattern. -/
def searchBetween : List Char → Option (ℤ × ℤ)
  | [] => none
  | c :: rest =>
    match matchBetweenAt (c :: rest) with
    | some v => some v
    | none => searchBetween rest

/-- Alternatives of the above pattern (rag_chatbot.py:212). -/
def aboveKeys : List String := ["above", "greater than", "more than", "over"]

/-- Alternatives of the below pattern (rag_chatbot.py:213). -/
def belowKeys : List String := ["below", "less than", "under"]

/-- Alternatives of `(?:equals?|exactly)` (rag_chatbot.py:215), longest
variant of the optional-s alternation first, as the regex matches it. -/
def exactKeys : List String := ["equals", "equal", "exactly"]

/-- `extract_amount_info` (rag_chatbot.py:206-231): the four phrase
patterns tested in the source's order — between, then above, then below,
then equals/exactly — over the lowered question. -/
def extractAmountInfo (question : String) : AmountInfo :=
  let ql := lowerStr question
  match searchBetween ql.data with
  | some (a, b) => AmountInfo.range a b
  | none =>
    match searchKeyNum aboveKeys ql.data with
    | some v => AmountInfo.above v
    | none =>
      match searchKeyNum belowKeys ql.data with
      | some v => AmountInfo.below v
      | none =>
        match searchKeyNum exactKeys ql.data with
        | some v => AmountInfo.exactAmount v
        | none => AmountInfo.empty

/-- The amount-filter step of `handle_threshold_question`
(rag_chatbot.py:786-798): strict comparison of the Withdrawal(Dr) column
for above and below, inclusive bounds for range, equality for exact; with
no amount info the handler asks for a threshold instead of filtering
(modelled as `none`). -/
def thresholdFilter (info : AmountInfo) (df : List Record) : Option (List Record) :=
  match info with
  | AmountInfo.above lo => some (df.filter (fun r => decide (lo < r.withdrawal)))
  | AmountInfo.below hi => some (df.filter (fun r => decide (r.withdrawal < hi)))
  | AmountInfo.range lo hi =>
      some (df.filter (fun r => decide (lo ≤ r.withdrawal) && decide (r.withdrawal ≤ hi)))
  | AmountInfo.exactAmount v => some (df.filter (fun r => r.withdrawal == v))
  | AmountInfo.empty => none

/-- The intent record built by `understand_question` (rag_chatbot.py:281-291).
The `search_terms` slot (`extract_search_terms`) and the `time_period` and
`metric` slots (initialised to None and never assigned) are referenced by
no claim and are not modelled. -/
structure Intent where
  type : String
  category : Option String
  transactionType : Option String
  isRelevant : Bool
  dateInfo : DateInfo
  amountInfo : AmountInfo
deriving DecidableEq, Repr

/-- Keyword sets of the intent-type cascade (rag_chatbot.py:302-328), in
the cascade's order. -/
def trendWords : List String :=
  ["trend", "trending", "pattern", "over time", "growth", "increase", "decrease"]

def comparisonWords : List String := ["compare", "comparison", "vs", "versus", "against"]

def searchWords : List String := ["find", "search", "containing", "show me", "payments to"]

def thresholdWords : List String :=
  ["above", "below", "greater than", "less than", "between", "over", "under"]

def minimumWords : List String := ["lowest", "minimum", "smallest", "least", "bottom"]

def percentageWords : List String := ["percentage", "percent", "%", "ratio", "proportion"]

def frequencyWords : List String := ["frequency", "often", "how many times", "frequent"]

def averageWords : List String := ["average", "avg", "mean"]

def totalWords : List String := ["total", "sum", "how much"]

def countWords : List String := ["count", "number", "how many"]

def topWords : List String := ["top", "highest", "largest", "biggest", "maximum"]

def balanceWords : List String := ["balance", "current"]

def categoryBreakdownWords : List String := ["category", "categories", "breakdown"]

/-- `category_mapping` (rag_chatbot.py:331-347), in dict insertion order
(the iteration order of the first-match loop). -/
def categoryMapping : List (String × String) :=
  [("food", "Food & Dining"), ("dining", "Food & Dining"), ("restaurant", "Food & Dining"),
   ("healthcare", "Healthcare"), ("health", "Healthcare"), ("medical", "Healthcare"),
   ("financial", "Financial Services"), ("finance", "Financial Services"),
   ("transport", "Transportation"), ("transportation", "Transportation"),
   ("travel", "Transportation"), ("education", "Education"), ("shopping", "Shopping"),
   ("personal", "Personal Care"), ("care", "Personal Care")]

def creditWords : List String := ["credited", "credit", "received", "deposit"]

def debitWords : List String := ["debited", "debit", "withdrawn", "spent", "expense"]

/-- `any(word in question_lower for word in ...)`. -/
def anyIn (ql : String) (ws : List String) : Bool := ws.any (fun w => containsSub ql w)

/-- `understand_question` (rag_chatbot.py:277-360): the relevance flag, the
slot extractions, and the ordered type cascade over the lowered stripped
question.  Note that every field is populated whether or not the question
is relevant — the relevance gate does not stop slot or type extraction. -/
def understandQuestion (question : String) : Intent :=
  let ql := stripStr (lowerStr question)
  { type :=
      if anyIn ql greetingsList then "greeting"
      else if anyIn ql helpKeywords then "help"
      else if anyIn ql trendWords then "trend"
      else if anyIn ql comparisonWords then "comparison"
      else if anyIn ql searchWords then "search"
      else if anyIn ql thresholdWords then "threshold"
      else if anyIn ql minimumWords then "minimum"
      else if anyIn ql percentageWords then "percentage"
      else if anyIn ql frequencyWords then "frequency"
      else if anyIn ql averageWords then "average"
      else if anyIn ql totalWords then "total"
      else if anyIn ql countWords then "count"
      else if anyIn ql topWords then "top"
      else if anyIn ql balanceWords then "balance"
      else if anyIn ql categoryBreakdownWords then "category_breakdown"
      else "general",
    category := (categoryMapping.find? (fun km => containsSub ql km.1)).map (fun km => km.2),
    transactionType :=
      if anyIn ql creditWords then some "credit"
      else if anyIn ql debitWords then some "debit"
      else none,
    isRelevant := isTransactionRelated question,
    dateInfo := extractDateInfo question,
    amountInfo := extractAmountInfo question }

/-- The fixed refusal string of `handle_out_of_context_question`
(rag_chatbot.py:409-412). -/
def outOfContextAnswer : String :=
  "Sorry, I can only help with questions about your transaction data. Try asking about your spending, categories, balances, or transaction trends."

/-- The dispatcher guard of `generate_response` (rag_chatbot.py:362-370): a
question whose intent is not relevant is answered with the fixed refusal
string before any handler runs.  The per-type handler dispatch of lines
371-407 is abstracted as the `handlers` argument; the refusal theorem below
quantifies over it and over the ledger, which is exactly the sense in which
the refusal path never touches the ledger. -/
def generateResponse (handlers : List Record → Intent → String)
    (ledger : List Record) (question : String) : String :=
  let intent := understandQuestion question
  if intent.isRelevant = false then outOfContextAnswer
  else handlers ledger intent

/-- An out-of-date-order ledger: the chronologically last record (date 2,
Balance 100) is presented first. -/
def ledgerC4 : List Record :=
  [{date := 2, narration := "late", withdrawal := 0, deposit := 0, balance := 100,
    category := "Miscellaneous"},
   {date := 1, narration := "early", withdrawal := 0, deposit := 0, balance := 50,
    category := "Miscellaneous"}]

/-- A ledger sorted by date ascending. -/
def ledgerC4w : List Record :=
  [{date := 1, narration := "a", withdrawal := 10, deposit := 0, balance := 100,
    category := "Miscellaneous"},
   {date := 2, narration := "b", withdrawal := 5, deposit := 0, balance := 95,
    category := "Miscellaneous"}]

/-- The snapshot of `ledgerC4w`. -/
def analyticsC4w : Analytics :=
  { total_transactions := 2, total_spent := 15, total_received := 0,
    current_balance := 95, categoriesTotals := [("Miscellaneous", 15)] }

/-- A question mixing a non-financial keyword with a financial keyword and
a year. -/
def qC5 : String := "weather total 2024"

/-- A purely non-financial question. -/
def qC5w : String := "what is the weather today"

/-- A concrete stand-in for the handler table, to instantiate the
refusal theorem. -/
def constHandlers : List Record → Intent → String := fun _ _ => "handled"

/-- A record whose withdrawal is exactly the threshold bound 5000. -/
def rC7 : Record :=
  { date := 1, narration := "exactly five thousand", withdrawal := 5000, deposit := 0,
    balance := 0, category := "Miscellaneous" }

/-- A record whose withdrawal exceeds the threshold bound. -/
def rC7b : Record :=
  { date := 2, narration := "six thousand", withdrawal := 6000, deposit := 0,
    balance := 0, category := "Miscellaneous" }

def dfC7 : List Record := [rC7, rC7b]

/-- A three-record ledger over two categories. -/
def ledgerC8 : List Record :=
  [{date := 1, narration := "a", withdrawal := 10, deposit := 0, balance := 90,
    category := "Food & Dining"},
   {date := 2, narration := "b", withdrawal := 5, deposit := 3, balance := 88,
    category := "Shopping"},
   {date := 3, narration := "c", withdrawal := 2, deposit := 0, balance := 86,
    category := "Food & Dining"}]

/-- The snapshot of `ledgerC8`. -/
def analyticsC8 : Analytics :=
  { total_transactions := 3, total_spent := 17, total_received := 3,
    current_balance := 86, categoriesTotals := [("Food & Dining", 12), ("Shopping", 5)] }

/-- The ids of the well-formed elements of a parsed response list. -/
def itemIds : List RespItem → List Nat
  | [] => []
  | RespItem.malformed :: rest => itemIds rest
  | RespItem.item i _ :: rest => i :: itemIds rest

/-- Batch `b` never writes to key `k`: no transaction of the batch has id `k`
(this is what the fallback path can write) and, if the batch's response
parses, no well-formed response item carries id `k`. -/
def Untouched (oracle : Nat → ApiOutcome) (txs : List TxRef) (bs k b : Nat) : Prop :=
  (∀ tx ∈ batchOf txs bs b, tx.id ≠ k) ∧
  (∀ items, oracle b = ApiOutcome.ok items → ∀ i c, RespItem.item i c ∈ items → i ≠ k)

/-- A two-transaction input categorized in a single batch. -/
def txsC6 : List TxRef := [⟨0, "aaaa"⟩, ⟨1, "bbbb"⟩]

/-- A parsed response whose first item carries an out-of-taxonomy label. -/
def itemsC6 : List RespItem := [RespItem.item 0 "Bogus Label", RespItem.item 1 "Shopping"]

def oracleC6 : Nat → ApiOutcome := fun _ => ApiOutcome.ok itemsC6

theorem dinsert_self (m : ResultMap) (k : Nat) (v : String) : dinsert m k v k = some v := by
  simp [dinsert]

theorem dinsert_other (m : ResultMap) (k j : Nat) (v : String) (h : j ≠ k) :
    dinsert m k v j = m j := by
  simp [dinsert, h]

theorem processItems_preserve (items : List RespItem) (m : ResultMap) (k : Nat)
    (h : ∀ i c, RespItem.item i c ∈ items → i ≠ k) :
    processItems items m k = m k := by
  induction items generalizing m with
  | nil => rfl
  | cons hd rest ih =>
    cases hd with
    | malformed =>
      exact ih m (fun i c hm => h i c (List.mem_cons_of_mem _ hm))
    | item i c =>
      show processItems rest (dinsert m i _) k = m k
      rw [ih _ (fun i2 c2 hm => h i2 c2 (List.mem_cons_of_mem _ hm))]
      exact dinsert_other m i k _ (Ne.symm (h i c (List.mem_cons_self _ _)))

theorem processItems_isSome_mono (items : List RespItem) (m : ResultMap) (k : Nat)
    (h : (m k).isSome = true) : (processItems items m k).isSome = true := by
  induction items generalizing m with
  | nil => exact h
  | cons hd rest ih =>
    cases hd with
    | malformed => exact ih m h
    | item i c =>
      apply ih
      by_cases hik : k = i
      · subst hik; rw [dinsert_self]; rfl
      · rw [dinsert_other _ _ _ _ hik]; exact h

theorem processItems_covers (items : List RespItem) (m : ResultMap) (k : Nat) (c : String)
    (h : RespItem.item k c ∈ items) : (processItems items m k).isSome = true := by
  induction items generalizing m with
  | nil => cases h
  | cons hd rest ih =>
    cases hd with
    | malformed =>
      exact ih m (by simpa using h)
    | item i c2 =>
      rcases List.mem_cons.1 h with heq | hrest
      · cases heq
        show (processItems rest (dinsert m k (if c ∈ categories then c
          else "Miscellaneous")) k).isSome = true
        apply processItems_isSome_mono
        rw [dinsert_self]; rfl
      · exact ih _ hrest

theorem mem_itemIds (items : List RespItem) (i : Nat) (c : String)
    (h : RespItem.item i c ∈ items) : i ∈ itemIds items := by
  induction items with
  | nil => cases h
  | cons hd rest ih =>
    cases hd with
    | malformed =>
      rcases List.mem_cons.1 h with heq | hrest
      · cases heq
      · exact ih hrest
    | item i2 c2 =>
      rcases List.mem_cons.1 h with heq | hrest
      · cases heq; exact List.mem_cons_self _ _
      · exact List.mem_cons_of_mem _ (ih hrest)

theorem processItems_eval (items : List RespItem) (m : ResultMap) (k : Nat) (c : String)
    (hnodup : (itemIds items).Nodup) (h : RespItem.item k c ∈ items) :
    processItems items m k = some (if c ∈ categories then c else "Miscellaneous") := by
  induction items generalizing m with
  | nil => cases h
  | cons hd rest ih =>
    cases hd with
    | malformed =>
      rcases List.mem_cons.1 h with heq | hrest
      · cases heq
      · exact ih m hnodup hrest
    | item i c2 =>
      have hnc := List.nodup_cons.1 (show (i :: itemIds rest).Nodup from hnodup)
      rcases List.mem_cons.1 h with heq | hrest
      · cases heq
        show processItems rest (dinsert m k _) k = _
        rw [processItems_preserve rest _ k ?_, dinsert_self]
        intro i2 c3 hm hik
        subst hik
        exact hnc.1 (mem_itemIds rest i2 c3 hm)
      · exact ih _ hnc.2 hrest

theorem fallbackBatch_preserve_some (batch : List TxRef) (m : ResultMap) (k : Nat) (v : String)
    (h : m k = some v) : fallbackBatch batch m k = some v := by
  induction batch generalizing m with
  | nil => exact h
  | cons tx rest ih =>
    show fallbackBatch rest (if (m tx.id).isSome then m
      else dinsert m tx.id (enhancedCategorize tx.narration)) k = some v
    by_cases hs : (m tx.id).isSome = true
    · rw [if_pos hs]; exact ih m h
    · rw [if_neg hs]
      apply ih
      by_cases hik : k = tx.id
      · subst hik; rw [h] at hs; cases hs rfl
      · rw [dinsert_other _ _ _ _ hik]; exact h

theorem fallbackBatch_preserve_none (batch : List TxRef) (m : ResultMap) (k : Nat)
    (h : ∀ tx ∈ batch, tx.id ≠ k) : fallbackBatch batch m k = m k := by
  induction batch generalizing m with
  | nil => rfl
  | cons tx rest ih =>
    show fallbackBatch rest (if (m tx.id).isSome then m
      else dinsert m tx.id (enhancedCategorize tx.narration)) k = m k
    have hne : k ≠ tx.id := Ne.symm (h tx (List.mem_cons_self _ _))
    by_cases hs : (m tx.id).isSome = true
    · rw [if_pos hs]
      exact ih m (fun t ht => h t (List.mem_cons_of_mem _ ht))
    · rw [if_neg hs]
      rw [ih _ (fun t ht => h t (List.mem_cons_of_mem _ ht))]
      exact dinsert_other _ _ _ _ hne

theorem fallbackBatch_isSome_mono (batch : List TxRef) (m : ResultMap) (k : Nat)
    (h : (m k).isSome = true) : (fallbackBatch batch m k).isSome = true := by
  rcases Option.isSome_iff_exists.1 h with ⟨v, hv⟩
  rw [fallbackBatch_preserve_some batch m k v hv]; rfl

theorem fallbackBatch_covers (batch : List TxRef) (m : ResultMap) (tx : TxRef)
    (h : tx ∈ batch) : (fallbackBatch batch m tx.id).isSome = true := by
  induction batch generalizing m with
  | nil => cases h
  | cons hd rest ih =>
    show (fallbackBatch rest (if (m hd.id).isSome then m
      else dinsert m hd.id (enhancedCategorize hd.narration)) tx.id).isSome = true
    rcases List.mem_cons.1 h with heq | hrest
    · subst heq
      by_cases hs : (m tx.id).isSome = true
      · rw [if_pos hs]; exact fallbackBatch_isSome_mono rest m tx.id hs
      · rw [if_neg hs]
        apply fallbackBatch_isSome_mono
        rw [dinsert_self]; rfl
    · exact ih _ hrest

theorem fallbackBatch_assign (batch : List TxRef) (m : ResultMap) (tx : TxRef)
    (hnodup : (batch.map TxRef.id).Nodup) (h : tx ∈ batch) (hnone : m tx.id = none) :
    fallbackBatch batch m tx.id = some (enhancedCategorize tx.narration) := by
  induction batch generalizing m with
  | nil => cases h
  | cons hd rest ih =>
    show fallbackBatch rest (if (m hd.id).isSome then m
      else dinsert m hd.id (enhancedCategorize hd.narration)) tx.id = _
    have hnc := List.nodup_cons.1 (show (hd.id :: rest.map TxRef.id).Nodup from hnodup)
    rcases List.mem_cons.1 h with heq | hrest
    · subst heq
      rw [if_neg (show ¬((m tx.id).isSome = true) by rw [hnone]; simp)]
      rw [fallbackBatch_preserve_none rest _ tx.id ?_, dinsert_self]
      intro t ht hte
      exact hnc.1 (hte ▸ List.mem_map_of_mem TxRef.id ht)
    · have hne : tx.id ≠ hd.id := by
        intro hx
        exact hnc.1 (hx ▸ List.mem_map_of_mem TxRef.id hrest)
      by_cases hs : (m hd.id).isSome = true
      · rw [if_pos hs]; exact ih _ hnc.2 hrest hnone
      · rw [if_neg hs]
        exact ih _ hnc.2 hrest (by rw [dinsert_other _ _ _ _ hne]; exact hnone)

theorem processBatch_isSome_mono (o : ApiOutcome) (batch : List TxRef) (m : ResultMap) (k : Nat)
    (h : (m k).isSome = true) : (processBatch o batch m k).isSome = true := by
  cases o with
  | err => exact fallbackBatch_isSome_mono batch m k h
  | ok items => exact processItems_isSome_mono items m k h

theorem runBatches_append (oracle : Nat → ApiOutcome) (txs : List TxRef) (bs : Nat)
    (l1 l2 : List Nat) (m : ResultMap) :
    runBatches oracle txs bs (l1 ++ l2) m =
      runBatches oracle txs bs l2 (runBatches oracle txs bs l1 m) := by
  induction l1 generalizing m with
  | nil => rfl
  | cons b rest ih => exact ih _

theorem runBatches_isSome_mono (oracle : Nat → ApiOutcome) (txs : List TxRef) (bs : Nat)
    (l : List Nat) (m : ResultMap) (k : Nat) (h : (m k).isSome = true) :
    (runBatches oracle txs bs l m k).isSome = true := by
  induction l generalizing m with
  | nil => exact h
  | cons b rest ih => exact ih _ (processBatch_isSome_mono _ _ _ _ h)

theorem runBatches_untouched (oracle : Nat → ApiOutcome) (txs : List TxRef) (bs : Nat)
    (l : List Nat) (m : ResultMap) (k : Nat)
    (h : ∀ b ∈ l, Untouched oracle txs bs k b) :
    runBatches oracle txs bs l m k = m k := by
  induction l generalizing m with
  | nil => rfl
  | cons b rest ih =>
    show runBatches oracle txs bs rest _ k = m k
    rw [ih _ (fun b2 hb2 => h b2 (List.mem_cons_of_mem _ hb2))]
    have hu := h b (List.mem_cons_self _ _)
    cases ho : oracle b with
    | err =>
      show fallbackBatch _ m k = m k
      exact fallbackBatch_preserve_none _ m k hu.1
    | ok items =>
      show processItems items m k = m k
      exact processItems_preserve items m k (fun i c hm => hu.2 items ho i c hm)

theorem mem_batchOf_iff (txs : List TxRef) (bs b : Nat) (tx : TxRef) :
    tx ∈ batchOf txs bs b ↔ ∃ j, j < bs ∧ txs[b * bs + j]? = some tx := by
  constructor
  · intro h
    rcases List.mem_iff_getElem?.1 h with ⟨j, hj⟩
    rw [batchOf, List.getElem?_take] at hj
    by_cases hjb : j < bs
    · rw [if_pos hjb, List.getElem?_drop] at hj
      exact ⟨j, hjb, hj⟩
    · rw [if_neg hjb] at hj; cases hj
  · rintro ⟨j, hjb, hj⟩
    apply List.mem_iff_getElem?.2
    refine ⟨j, ?_⟩
    rw [batchOf, List.getElem?_take, if_pos hjb, List.getElem?_drop]
    exact hj

theorem slot_lt {b b2 j bs : Nat} (hbb : b < b2) (hj : j < bs) : b * bs + j < b2 * bs := by
  have h1 : (b + 1) * bs ≤ b2 * bs := Nat.mul_le_mul_right bs hbb
  have h2 : (b + 1) * bs = b * bs + bs := by ring
  omega

theorem batch_disjoint_ids (txs : List TxRef) (bs : Nat)
    (hids : (txs.map TxRef.id).Nodup) {b b2 : Nat} {tx tx2 : TxRef}
    (h1 : tx ∈ batchOf txs bs b) (h2 : tx2 ∈ batchOf txs bs b2) (hbb : b ≠ b2) :
    tx.id ≠ tx2.id := by
  rcases (mem_batchOf_iff txs bs b tx).1 h1 with ⟨j, hjb, hj⟩
  rcases (mem_batchOf_iff txs bs b2 tx2).1 h2 with ⟨j2, hjb2, hj2⟩
  intro hid
  have hm1 : (txs.map TxRef.id)[b * bs + j]? = some tx.id := by
    rw [List.getElem?_map, hj]; rfl
  have hm2 : (txs.map TxRef.id)[b2 * bs + j2]? = some tx.id := by
    rw [List.getElem?_map, hj2, hid]; rfl
  have hlen : b * bs + j < (txs.map TxRef.id).length := by
    rcases List.getElem?_eq_some.1 hm1 with ⟨hl, _⟩
    exact hl
  have heq := List.getElem?_inj hlen hids (hm1.trans hm2.symm)
  rcases Nat.lt_or_ge b b2 with hlt | hge
  · exact absurd heq
      (Nat.ne_of_lt (Nat.lt_of_lt_of_le (slot_lt hlt hjb) (Nat.le_add_right _ _)))
  · have hlt2 : b2 < b := lt_of_le_of_ne hge (Ne.symm hbb)
    exact absurd heq.symm
      (Nat.ne_of_lt (Nat.lt_of_lt_of_le (slot_lt hlt2 hjb2) (Nat.le_add_right _ _)))

theorem batch_lt_total (txs : List TxRef) (bs b : Nat) (tx : TxRef) (hbs : 0 < bs)
    (hmem : tx ∈ batchOf txs bs b) : b < (txs.length + bs - 1) / bs := by
  rcases (mem_batchOf_iff txs bs b tx).1 hmem with ⟨j, hjb, hj⟩
  rcases List.getElem?_eq_some.1 hj with ⟨hlen, _⟩
  have h1 : b + 1 ≤ (txs.length + bs - 1) / bs := by
    rw [Nat.le_div_iff_mul_le hbs]
    have h2 : (b + 1) * bs = b * bs + bs := by ring
    omega
  omega

theorem mem_some_batch (txs : List TxRef) (bs : Nat) (tx : TxRef) (hbs : 0 < bs)
    (htx : tx ∈ txs) :
    ∃ b, b < (txs.length + bs - 1) / bs ∧ tx ∈ batchOf txs bs b := by
  rcases List.mem_iff_getElem?.1 htx with ⟨p, hp⟩
  have hkey : p / bs * bs + p % bs = p := by
    rw [Nat.mul_comm]
    exact Nat.div_add_mod p bs
  have hmem : tx ∈ batchOf txs bs (p / bs) := by
    apply (mem_batchOf_iff txs bs (p / bs) tx).2
    exact ⟨p % bs, Nat.mod_lt _ hbs, by rw [hkey]; exact hp⟩
  exact ⟨p / bs, batch_lt_total txs bs (p / bs) tx hbs hmem, hmem⟩

theorem range_decomp (b total : Nat) (h : b < total) :
    List.range total =
      List.range b ++ b :: ((List.range (total - b - 1)).map (fun i => b + 1 + i)) := by
  conv_lhs => rw [show total = b + (total - b) from by omega]
  rw [List.range_add]
  congr 1
  rw [show total - b = (total - b - 1) + 1 from by omega, List.range_succ_eq_map]
  simp only [List.map_cons, List.map_map, Nat.add_zero]
  congr 1
  apply List.map_congr_left
  intro i _
  simp only [Function.comp_apply]
  omega

theorem runBatches_decomp (oracle : Nat → ApiOutcome) (txs : List TxRef) (bs : Nat)
    (b total : Nat) (h : b < total) (m : ResultMap) :
    runBatches oracle txs bs (List.range total) m =
      runBatches oracle txs bs ((List.range (total - b - 1)).map (fun i => b + 1 + i))
        (processBatch (oracle b) (batchOf txs bs b)
          (runBatches oracle txs bs (List.range b) m)) := by
  rw [range_decomp b total h, runBatches_append]
  rfl

theorem find?_of_mem_unique {α : Type} (p : α → Bool) (f : α → String) (l : List α) (a : α)
    (ha : a ∈ l) (hpa : p a = true) (hu : ∀ b ∈ l, p b = true → f b = f a) :
    ∃ b, l.find? p = some b ∧ f b = f a := by
  induction l with
  | nil => cases ha
  | cons x xs ih =>
    by_cases hx : p x = true
    · exact ⟨x, List.find?_cons_of_pos _ hx, hu x (List.mem_cons_self _ _) hx⟩
    · have hax : a ≠ x := fun he => hx (he ▸ hpa)
      have ha2 : a ∈ xs := by
        rcases List.mem_cons.1 ha with h1 | h2
        · exact absurd h1 hax
        · exact h2
      rcases ih ha2 (fun b hb hpb => hu b (List.mem_cons_of_mem _ hb) hpb) with ⟨b, hb1, hb2⟩
      exact ⟨b, by rw [List.find?_cons_of_neg _ hx]; exact hb1, hb2⟩

/-- Every value `enhanced_categorize` can return is a member of the closed
taxonomy: the keyword loop returns keys of the keyword table, the other
branches return literals of the taxonomy. -/
theorem enhancedCategorize_mem (s : String) : enhancedCategorize s ∈ categories := by
  simp only [enhancedCategorize]
  split
  · decide
  · split
    · next entry hfind =>
      have hmem := List.mem_of_find?_eq_some hfind
      have hall : ∀ e ∈ keywordMap, e.1 ∈ categories := by decide
      exact hall entry hmem
    · split
      · decide
      · split
        · decide
        · split
          · decide
          · decide

theorem dinsert_values (m : ResultMap) (k : Nat) (v : String)
    (hm : ∀ i c, m i = some c → c ∈ categories) (hv : v ∈ categories) :
    ∀ i c, dinsert m k v i = some c → c ∈ categories := by
  intro i c h
  rw [dinsert] at h
  by_cases hik : i = k
  · rw [if_pos hik] at h
    cases h
    exact hv
  · rw [if_neg hik] at h
    exact hm i c h

theorem processItems_values (items : List RespItem) (m : ResultMap)
    (hm : ∀ i c, m i = some c → c ∈ categories) :
    ∀ i c, processItems items m i = some c → c ∈ categories := by
  induction items generalizing m with
  | nil => exact hm
  | cons hd rest ih =>
    cases hd with
    | malformed => exact ih m hm
    | item i2 c2 =>
      apply ih
      apply dinsert_values m i2 _ hm
      by_cases hc : c2 ∈ categories
      · rw [if_pos hc]; exact hc
      · rw [if_neg hc]; decide

theorem fallbackBatch_values (batch : List TxRef) (m : ResultMap)
    (hm : ∀ i c, m i = some c → c ∈ categories) :
    ∀ i c, fallbackBatch batch m i = some c → c ∈ categories := by
  induction batch generalizing m with
  | nil => exact hm
  | cons tx rest ih =>
    apply ih
    by_cases hs : (m tx.id).isSome = true
    · rw [if_pos hs]; exact hm
    · rw [if_neg hs]
      exact dinsert_values m tx.id _ hm (enhancedCategorize_mem tx.narration)

theorem runBatches_values (oracle : Nat → ApiOutcome) (txs : List TxRef) (bs : Nat)
    (l : List Nat) (m : ResultMap) (hm : ∀ i c, m i = some c → c ∈ categories) :
    ∀ i c, runBatches oracle txs bs l m i = some c → c ∈ categories := by
  induction l generalizing m with
  | nil => exact hm
  | cons b rest ih =>
    apply ih
    cases oracle b with
    | err => exact fallbackBatch_values _ m hm
    | ok items => exact processItems_values items m hm

/-- C1, counterexample.  The claim asserts that the mapping returned by
`batch_categorize_all_transactions` has an entry for every input id, for
every input sequence and positive batch size.  It fails on the code: when a
batch call succeeds but the parsed response list omits an id of the batch
(here the response is the well-formed empty list `[]`), nothing is stored
for that id and the fallback does not run, so the single input id 0 has no
entry in the output mapping. -/
theorem C1_counterexample :
    batchCategorizeAll (fun _ => ApiOutcome.ok []) [⟨0, "hello"⟩] 1 0 = none := rfl

/-- C1, amended.  For every input sequence, every positive batch size and
every oracle behaviour in which each successfully parsed batch response
contains a well-formed `{id, category}` item for every id of its own batch,
the returned mapping has an entry for every input id; in particular failed
batches never abort the others (their ids are always covered via the
fallback, whatever the other batches did, and the function itself is total:
every failure path ends in the per-batch fallback rather than an
exception). -/
theorem C1_batch_output_coverage (oracle : Nat → ApiOutcome) (txs : List TxRef) (bs : Nat)
    (hbs : 0 < bs)
    (hcov : ∀ b items, oracle b = ApiOutcome.ok items →
      ∀ tx ∈ batchOf txs bs b, ∃ c, RespItem.item tx.id c ∈ items)
    (tx : TxRef) (htx : tx ∈ txs) :
    (batchCategorizeAll oracle txs bs tx.id).isSome = true := by
  rcases mem_some_batch txs bs tx hbs htx with ⟨b, hblt, hmem⟩
  rw [batchCategorizeAll, runBatches_decomp oracle txs bs b _ hblt]
  apply runBatches_isSome_mono
  cases ho : oracle b with
  | err => exact fallbackBatch_covers _ _ tx hmem
  | ok items =>
    rcases hcov b items ho tx hmem with ⟨c, hc⟩
    exact processItems_covers items _ tx.id c hc

/-- C1, witness: a single transaction whose only batch fails is covered by
the fallback, so its id is present in the output mapping. -/
theorem C1_batch_output_coverage_witness :
    (batchCategorizeAll (fun _ => ApiOutcome.err) [⟨0, "hello"⟩] 1 0).isSome = true :=
  C1_batch_output_coverage (fun _ => ApiOutcome.err) [⟨0, "hello"⟩] 1 (by decide)
    (fun _ _ h => nomatch h) ⟨0, "hello"⟩ (by decide)

/-- C2, counterexample.  The claim asserts that on a failed batch every id
of the batch is mapped to the rule-based category of its narration.  It
fails on the code because the fallback loop skips ids that are already
present (categorizer.py:184): here batch 0 succeeds with a response naming
id 1 (which belongs to batch 1), then batch 1 fails, and id 1 keeps the
service label "Shopping" although the rule-based categorizer yields
"Miscellaneous" for its narration. -/
theorem C2_counterexample :
    batchCategorizeAll
        (fun b => if b = 0 then ApiOutcome.ok [RespItem.item 1 "Shopping"] else ApiOutcome.err)
        [⟨0, "aaaa"⟩, ⟨1, "bbbb"⟩] 1 1 = some "Shopping" ∧
      enhancedCategorize "bbbb" = "Miscellaneous" := by
  constructor
  · rfl
  · rfl

/-- C2, amended.  If the input ids are pairwise distinct and every
successfully parsed batch response mentions only ids of its own batch, then
every id of a batch whose classification call fails is mapped to exactly
the category the standalone rule-based categorizer produces for that
transaction's narration. -/
theorem C2_failed_batch_rule_based (oracle : Nat → ApiOutcome) (txs : List TxRef) (bs : Nat)
    (hbs : 0 < bs) (hids : (txs.map TxRef.id).Nodup)
    (hok : ∀ b items, oracle b = ApiOutcome.ok items →
      ∀ i c, RespItem.item i c ∈ items → ∃ tx2, tx2 ∈ batchOf txs bs b ∧ tx2.id = i)
    (b : Nat) (hberr : oracle b = ApiOutcome.err)
    (tx : TxRef) (htx : tx ∈ batchOf txs bs b) :
    batchCategorizeAll oracle txs bs tx.id = some (enhancedCategorize tx.narration) := by
  have hblt : b < (txs.length + bs - 1) / bs := batch_lt_total txs bs b tx hbs htx
  have huntouched : ∀ b2, b2 ≠ b → Untouched oracle txs bs tx.id b2 := by
    intro b2 hb2
    constructor
    · intro tx2 htx2
      exact batch_disjoint_ids txs bs hids htx2 htx hb2
    · intro items hoki i c hitem
      rcases hok b2 items hoki i c hitem with ⟨tx2, htx2, hid2⟩
      exact hid2 ▸ batch_disjoint_ids txs bs hids htx2 htx hb2
  have hphase1 : runBatches oracle txs bs (List.range b) (fun _ => none) tx.id = none := by
    rw [runBatches_untouched]
    intro b2 hb2
    exact huntouched b2 (Nat.ne_of_lt (List.mem_range.1 hb2))
  have hnodupb : ((batchOf txs bs b).map TxRef.id).Nodup := by
    apply List.Nodup.sublist _ hids
    apply List.Sublist.map
    exact (List.take_sublist _ _).trans (List.drop_sublist _ _)
  have hunt2 : ∀ b2 ∈ (List.range ((txs.length + bs - 1) / bs - b - 1)).map
      (fun i => b + 1 + i), Untouched oracle txs bs tx.id b2 := by
    intro b2 hb2
    rcases List.mem_map.1 hb2 with ⟨j, _, hje⟩
    have hje2 : b2 = b + 1 + j := hje.symm
    exact huntouched b2 (by omega)
  rw [batchCategorizeAll, runBatches_decomp oracle txs bs b _ hblt,
    runBatches_untouched _ _ _ _ _ _ hunt2, hberr]
  exact fallbackBatch_assign _ _ tx hnodupb htx hphase1

/-- C2, witness: one transaction, one failing batch, distinct ids — the id
is mapped to its rule-based category. -/
theorem C2_failed_batch_rule_based_witness :
    batchCategorizeAll (fun _ => ApiOutcome.err) [⟨7, "zomato order"⟩] 1 7 =
      some (enhancedCategorize "zomato order") :=
  C2_failed_batch_rule_based (fun _ => ApiOutcome.err) [⟨7, "zomato order"⟩] 1 (by decide)
    (by decide) (fun _ _ h => nomatch h) 0 rfl ⟨7, "zomato order"⟩ (by decide)

/-- C3.  If the lowered narration matches the keyword table of exactly one
category (there is a matching entry, and every matching entry is that
category) and no person indicator occurs in it, then `enhanced_categorize`
returns that category; moreover the function is total into the closed
taxonomy: it returns a member of the 11-category list for every input
string (it is a pure Lean function, hence deterministic and free of
external calls). -/
theorem C3_unique_keyword_category (narration : String) (c : String)
    (hmatch : ∃ e ∈ keywordMap, e.1 = c ∧ catMatches (lowerStr narration) e = true)
    (huniq : ∀ e ∈ keywordMap, catMatches (lowerStr narration) e = true → e.1 = c)
    (hperson : ∀ p ∈ personIndicators, containsSub (lowerStr narration) p = false) :
    enhancedCategorize narration = c ∧ ∀ s, enhancedCategorize s ∈ categories := by
  refine ⟨?_, enhancedCategorize_mem⟩
  rcases hmatch with ⟨e, he, hec, hm⟩
  have hpa : (personIndicators.any (fun p => containsSub (lowerStr narration) p)) = false := by
    rw [List.any_eq_false]
    intro p hp
    rw [hperson p hp]
    simp
  rcases find?_of_mem_unique (catMatches (lowerStr narration)) Prod.fst keywordMap e he hm
      (fun b hb hpb => (huniq b hb hpb).trans hec.symm) with ⟨b, hfind, hbc⟩
  simp only [enhancedCategorize, hpa, Bool.false_and, Bool.false_eq_true, if_false, hfind]
  exact hbc.trans hec

/-- C3, witness: the narration "zomato" matches only the Food & Dining
keyword table and contains no person indicator. -/
theorem C3_unique_keyword_category_witness :
    enhancedCategorize "zomato" = "Food & Dining" :=
  (C3_unique_keyword_category "zomato" "Food & Dining" (by decide) (by decide) (by decide)).1

/-- C6.  For a single-batch input whose response parses as a list of
well-formed `{id, category}` items with pairwise distinct ids, every item
is stored individually: an item whose category is in the closed taxonomy
keeps its service-returned label, and an item whose category is outside it
is coerced to Miscellaneous — a per-item repair; the rule-based fallback is
not involved on this path (the stored value is determined by the response
item alone). -/
theorem C6_per_item_coercion (txs : List TxRef) (bs : Nat) (oracle : Nat → ApiOutcome)
    (items : List RespItem) (hn : 0 < txs.length) (hle : txs.length ≤ bs)
    (hok : oracle 0 = ApiOutcome.ok items) (hnodup : (itemIds items).Nodup)
    (i : Nat) (c : String) (hmem : RespItem.item i c ∈ items) :
    batchCategorizeAll oracle txs bs i =
      some (if c ∈ categories then c else "Miscellaneous") := by
  have hbs : 0 < bs := lt_of_lt_of_le hn hle
  have htot : (txs.length + bs - 1) / bs = 1 := by
    apply Nat.div_eq_of_lt_le
    · rw [Nat.one_mul]; omega
    · have h2 : (1 + 1) * bs = bs + bs := by ring
      omega
  rw [batchCategorizeAll, htot]
  have hr1 : List.range 1 = [0] := rfl
  rw [hr1]
  show processBatch (oracle 0) (batchOf txs bs 0) (fun _ => none) i = _
  rw [hok]
  exact processItems_eval items _ i c hnodup hmem

/-- C6, witness: in one batch of two transactions, the out-of-taxonomy
label "Bogus Label" for id 0 is coerced to Miscellaneous while id 1 keeps
its service label "Shopping". -/
theorem C6_per_item_coercion_witness :
    batchCategorizeAll oracleC6 txsC6 8 0 = some "Miscellaneous" ∧
      batchCategorizeAll oracleC6 txsC6 8 1 = some "Shopping" := by
  constructor
  · rw [C6_per_item_coercion txsC6 8 oracleC6 itemsC6 (by decide) (by decide) rfl (by decide)
      0 "Bogus Label" (by decide)]
    decide
  · rw [C6_per_item_coercion txsC6 8 oracleC6 itemsC6 (by decide) (by decide) rfl (by decide)
      1 "Shopping" (by decide)]
    decide

/-- C10.  Every category value the categorization stage can produce is a
member of the closed 11-member taxonomy: validated service labels are
checked against the list, invalid labels are coerced to Miscellaneous, the
per-batch fallback only returns taxonomy members, and the caller's default
for missing ids is Miscellaneous, so every record of the assembled
categorized ledger carries a valid category. -/
theorem C10_taxonomy_invariant (oracle : Nat → ApiOutcome) (txs : List TxRef) (bs : Nat)
    (raw : List RawRecord) :
    (∀ i c, batchCategorizeAll oracle txs bs i = some c → c ∈ categories) ∧
    (∀ rec ∈ assembleCategorized (batchCategorizeAll oracle txs bs) raw,
      rec.category ∈ categories) := by
  have h1 : ∀ i c, batchCategorizeAll oracle txs bs i = some c → c ∈ categories := by
    apply runBatches_values
    intro i c h
    cases h
  refine ⟨h1, ?_⟩
  intro rec hrec
  rw [assembleCategorized] at hrec
  rcases List.mem_map.1 hrec with ⟨p, _, heq⟩
  subst heq
  show ((batchCategorizeAll oracle txs bs p.1).getD "Miscellaneous") ∈ categories
  cases hx : batchCategorizeAll oracle txs bs p.1 with
  | none => decide
  | some c => exact h1 p.1 c hx

/-- C10, witness: a concrete run (single failing batch) produces the
taxonomy member "Food & Dining" for id 0. -/
theorem C10_taxonomy_invariant_witness : "Food & Dining" ∈ categories :=
  (C10_taxonomy_invariant (fun _ => ApiOutcome.err) [⟨0, "swiggy"⟩] 1 []).1 0
    "Food & Dining" (by decide)

theorem mem_uniqFirst (l : List String) (y : String) : y ∈ uniqFirst l ↔ y ∈ l := by
  induction l with
  | nil => simp [uniqFirst]
  | cons x xs ih =>
    simp only [uniqFirst, List.mem_cons]
    constructor
    · rintro (rfl | h2)
      · exact Or.inl rfl
      · exact Or.inr (ih.1 (List.mem_of_mem_filter h2))
    · rintro (rfl | h2)
      · exact Or.inl rfl
      · by_cases hyx : y = x
        · exact Or.inl hyx
        · refine Or.inr (List.mem_filter.2 ⟨ih.2 h2, ?_⟩)
          simpa using hyx

theorem nodup_uniqFirst (l : List String) : (uniqFirst l).Nodup := by
  induction l with
  | nil => exact List.nodup_nil
  | cons x xs ih =>
    apply List.nodup_cons.2
    constructor
    · intro hx
      rcases List.mem_filter.1 hx with ⟨_, hne⟩
      simp at hne
    · exact List.Nodup.filter _ ih

theorem sum_map_zero (xs : List String) (c : String) (w : ℤ) (h : c ∉ xs) :
    (xs.map (fun c2 => if c == c2 then w else 0)).sum = 0 := by
  induction xs with
  | nil => rfl
  | cons x xs ih =>
    have hcx : ¬((c == x) = true) := by
      simp only [beq_iff_eq]
      rintro rfl
      exact h (List.mem_cons_self _ _)
    simp only [List.map_cons, List.sum_cons]
    rw [if_neg hcx, ih (fun hx => h (List.mem_cons_of_mem _ hx)), add_zero]

theorem sum_map_ite (cats : List String) (c : String) (w : ℤ)
    (hnd : cats.Nodup) (hc : c ∈ cats) :
    (cats.map (fun c2 => if c == c2 then w else 0)).sum = w := by
  induction cats with
  | nil => cases hc
  | cons x xs ih =>
    simp only [List.map_cons, List.sum_cons]
    rcases List.mem_cons.1 hc with rfl | h2
    · rw [if_pos (by simp), sum_map_zero xs c w (List.nodup_cons.1 hnd).1, add_zero]
    · have hcx : ¬((c == x) = true) := by
        simp only [beq_iff_eq]
        rintro rfl
        exact (List.nodup_cons.1 hnd).1 h2
      rw [if_neg hcx, ih (List.nodup_cons.1 hnd).2 h2, zero_add]

theorem sum_map_add_split (cats : List String) (f g : String → ℤ) :
    (cats.map (fun c => f c + g c)).sum = (cats.map f).sum + (cats.map g).sum := by
  induction cats with
  | nil => rfl
  | cons x xs ih =>
    simp only [List.map_cons, List.sum_cons, ih]
    ring

theorem catTotalSpent_cons (x : Record) (l : List Record) (c : String) :
    catTotalSpent (x :: l) c =
      (if x.category == c then x.withdrawal else 0) + catTotalSpent l c := by
  rw [catTotalSpent, catTotalSpent, List.filter_cons]
  by_cases h : (x.category == c) = true
  · rw [if_pos h, if_pos h, List.map_cons, List.sum_cons]
  · rw [if_neg h, if_neg h, zero_add]

theorem partition_sum (ledger : List Record) (cats : List String)
    (hnd : cats.Nodup) (hcov : ∀ r ∈ ledger, r.category ∈ cats) :
    (cats.map (fun c => catTotalSpent ledger c)).sum = (ledger.map Record.withdrawal).sum := by
  induction ledger with
  | nil =>
    rw [List.map_nil, List.sum_nil]
    have hz : cats.map (fun c => catTotalSpent [] c) = cats.map (fun _ => (0 : ℤ)) := by
      apply List.map_congr_left
      intro c _
      rfl
    rw [hz]
    simp
  | cons x xs ih =>
    have hmap : cats.map (fun c => catTotalSpent (x :: xs) c)
        = cats.map (fun c => (if x.category == c then x.withdrawal else 0) + catTotalSpent xs c) := by
      apply List.map_congr_left
      intro c _
      exact catTotalSpent_cons x xs c
    rw [hmap, sum_map_add_split, ih (fun r hr => hcov r (List.mem_cons_of_mem _ hr)),
      sum_map_ite cats x.category x.withdrawal hnd (hcov x (List.mem_cons_self _ _)),
      List.map_cons, List.sum_cons]

theorem pairwise_le_getLast (ledger : List Record) (h : ledger ≠ [])
    (hs : ledger.Pairwise (fun a b => a.date ≤ b.date)) :
    ∀ r ∈ ledger, r.date ≤ (ledger.getLast h).date := by
  induction ledger with
  | nil => cases h rfl
  | cons x xs ih =>
    intro r hr
    cases xs with
    | nil =>
      rcases List.mem_cons.1 hr with rfl | h2
      · exact le_refl _
      · cases h2
    | cons y ys =>
      have hgl : (x :: y :: ys).getLast h = (y :: ys).getLast (by simp) :=
        List.getLast_cons _
      rcases List.mem_cons.1 hr with rfl | h2
      · rw [hgl]
        exact (List.pairwise_cons.1 hs).1 _ (List.getLast_mem _)
      · rw [hgl]
        exact ih (by simp) (List.pairwise_cons.1 hs).2 r h2

/-- C4, counterexample.  The claim asserts that `current_balance` is the
Balance of the chronologically last record even when records arrive out of
date order.  It fails on the code: `compute_analytics` takes
`df.iloc[-1]['Balance']` without sorting, so for a ledger presented out of
date order it returns the Balance of the presentation-last record (50),
while the chronologically last record (date 2) carries Balance 100 — as
`get_balance_info` of chatbot.py, which does maximise over dates,
confirms. -/
theorem C4_counterexample :
    (computeAnalytics ledgerC4).map Analytics.current_balance = some 50 ∧
      getBalanceInfo ledgerC4 = some 100 := by
  constructor
  · decide
  · decide

/-- C4, amended.  `current_balance` equals the Balance field of the last
record in presentation order, not a computed sum; when the ledger is sorted
by date ascending this is the chronologically last record (its date is
maximal among all records). -/
theorem C4_current_balance_sorted (ledger : List Record) (h : ledger ≠ [])
    (hs : ledger.Pairwise (fun a b => a.date ≤ b.date)) (a : Analytics)
    (ha : computeAnalytics ledger = some a) :
    a.current_balance = (ledger.getLast h).balance ∧
      ∀ r ∈ ledger, r.date ≤ (ledger.getLast h).date := by
  constructor
  · rw [computeAnalytics, dif_neg h] at ha
    cases ha
    rfl
  · exact pairwise_le_getLast ledger h hs

/-- C4, witness: a two-record ledger sorted by date; the snapshot's
current balance is the Balance of its (chronologically) last record. -/
theorem C4_current_balance_sorted_witness :
    computeAnalytics ledgerC4w = some analyticsC4w ∧ analyticsC4w.current_balance = 95 := by
  constructor
  · decide
  · have h := (C4_current_balance_sorted ledgerC4w (by decide) (by decide)
      analyticsC4w (by decide)).1
    rw [h]
    decide

/-- C5, counterexample.  The claim asserts that for a question containing a
non-financial keyword, classification stops with all other intent fields
left empty.  It fails on the code: `understand_question` populates every
field regardless of relevance — for "weather total 2024" the relevance flag
is false, yet the intent type is classified as "total" and the year slot is
extracted as 2024. -/
theorem C5_counterexample :
    isTransactionRelated qC5 = false ∧
      (understandQuestion qC5).type = "total" ∧
      (understandQuestion qC5).dateInfo.year = some "2024" := by
  refine ⟨by decide, by decide, by decide⟩

/-- C5, amended.  For every question containing a keyword of the fixed
non-financial topic set, the extractor sets relevance = false — this
rejection takes precedence over any financial keyword also present — and
the dispatcher returns the fixed refusal string without touching the
ledger (the answer is the refusal for every ledger and every handler
behaviour); the other intent fields are however still populated, not left
empty. -/
theorem C5_nonfinancial_refusal (question : String)
    (h : nonFinancialKeywords.any
      (fun k => containsSub (stripStr (lowerStr question)) k) = true) :
    isTransactionRelated question = false ∧
      (understandQuestion question).isRelevant = false ∧
      ∀ (handlers : List Record → Intent → String) (ledger : List Record),
        generateResponse handlers ledger question = outOfContextAnswer := by
  have h1 : isTransactionRelated question = false := by
    simp only [isTransactionRelated, h, if_true]
  refine ⟨h1, h1, ?_⟩
  intro handlers ledger
  show (if (understandQuestion question).isRelevant = false then outOfContextAnswer
    else handlers ledger (understandQuestion question)) = outOfContextAnswer
  rw [if_pos (show (understandQuestion question).isRelevant = false from h1)]

/-- C5, witness: the non-financial question "what is the weather today" is
marked irrelevant and refused, for an arbitrary concrete handler table and
the empty ledger. -/
theorem C5_nonfinancial_refusal_witness :
    isTransactionRelated qC5w = false ∧
      generateResponse constHandlers [] qC5w = outOfContextAnswer := by
  have h := C5_nonfinancial_refusal qC5w (by decide)
  exact ⟨h.1, h.2.2 constHandlers []⟩

/-- C7.  The question "above 5000" extracts the amount filter
`{type: above, min_amount: 5000.0}`, and the threshold handler's filter for
it keeps only records with withdrawal strictly greater than 5000: every
record whose withdrawal is exactly 5000 is excluded from the result. -/
theorem C7_threshold_strict (df : List Record) (r : Record) (_hr : r ∈ df)
    (hw : r.withdrawal = 5000) :
    extractAmountInfo "above 5000" = AmountInfo.above 5000 ∧
      ∀ out, thresholdFilter (extractAmountInfo "above 5000") df = some out → r ∉ out := by
  have he : extractAmountInfo "above 5000" = AmountInfo.above 5000 := by decide
  refine ⟨he, ?_⟩
  intro out hout
  rw [he] at hout
  have h2 : some (df.filter (fun rec => decide ((5000 : ℤ) < rec.withdrawal))) = some out :=
    hout
  cases h2
  intro hmem
  rcases List.mem_filter.1 hmem with ⟨_, hcond⟩
  rw [hw] at hcond
  simp at hcond

/-- C7, witness: of two records with withdrawals 5000 and 6000, the filter
for "above 5000" returns only the 6000 record; the 5000 record is
excluded. -/
theorem C7_threshold_strict_witness :
    extractAmountInfo "above 5000" = AmountInfo.above 5000 ∧
      thresholdFilter (extractAmountInfo "above 5000") dfC7 = some [rC7b] ∧
      rC7 ∉ [rC7b] := by
  have h := C7_threshold_strict dfC7 rC7 (by decide) rfl
  exact ⟨h.1, by decide, h.2 [rC7b] (by decide)⟩

/-- C8.  For every ledger whose snapshot exists, the sum over the
per-category `total_spent` aggregates equals the snapshot's overall
`total_spent`: the categories partition the ledger (each row contributes
its withdrawal to exactly the aggregate of its own category).  Stated over
exact arithmetic. -/
theorem C8_category_partition (ledger : List Record) (a : Analytics)
    (ha : computeAnalytics ledger = some a) :
    (a.categoriesTotals.map Prod.snd).sum = a.total_spent := by
  by_cases h : ledger = []
  · rw [computeAnalytics, dif_pos h] at ha
    cases ha
  · rw [computeAnalytics, dif_neg h] at ha
    cases ha
    show (((uniqFirst (ledger.map Record.category)).map
      (fun c => (c, catTotalSpent ledger c))).map Prod.snd).sum
      = (ledger.map Record.withdrawal).sum
    rw [List.map_map]
    have hco : (Prod.snd ∘ fun c => (c, catTotalSpent ledger c))
        = fun c => catTotalSpent ledger c := rfl
    rw [hco]
    exact partition_sum ledger _ (nodup_uniqFirst _)
      (fun r hr => (mem_uniqFirst _ _).2 (List.mem_map_of_mem Record.category hr))

/-- C8, witness: a three-record ledger over two categories; the snapshot's
per-category totals 12 and 5 sum to the overall total 17. -/
theorem C8_category_partition_witness :
    computeAnalytics ledgerC8 = some analyticsC8 ∧
      (analyticsC8.categoriesTotals.map Prod.snd).sum = analyticsC8.total_spent := by
  refine ⟨by decide, ?_⟩
  exact C8_category_partition ledgerC8 analyticsC8 (by decide)

/-- C9, counterexample.  The claim asserts that for the empty ledger the
snapshot carries all-zero totals, empty per-category/per-month maps and
empty top-N lists.  It fails on the code: `compute_analytics` returns the
empty dict `{}` for an empty frame (rag_chatbot.py:50-51), a mapping with
no keys at all — there is no zero `total_spent`, no empty `categories`
map and no empty top-10 lists in it (accessing any of those keys would
raise KeyError). -/
theorem C9_counterexample : computeAnalytics ([] : List Record) = none := rfl

/-- C9, amended.  When the ledger is empty, `compute_analytics` returns the
empty mapping (no keys at all, rather than zero-filled totals and empty
maps), and the `__init__` path likewise leaves the analytics attribute as
the empty dict; neither computation raises (both are total functions whose
empty-ledger branch is an early return). -/
theorem C9_empty_ledger_none :
    computeAnalytics ([] : List Record) = none ∧ initAnalytics ([] : List Record) = none :=
  ⟨rfl, rfl⟩

end TransactionTracker
